import Mathlib

/-!
Shallow embedding of the CHIP-8 interpreter from `src/emulator.rs` and
`src/opcode.rs`.

Modelling conventions:
* Machine integers are `Nat` with explicit reductions: `u8` arithmetic is
  taken `% 256`, `u16` arithmetic `% 65536`, exactly where the Rust code
  performs wrapping arithmetic (`wrapping_add`, `overflowing_add`,
  release-mode `+=` / `-=`).
* Rust array indexing panics when out of bounds; a handler that can panic
  is embedded as a function into `Except EmuError Emulator`, with a
  distinct error constructor per panic site class.
* `Instant`-based timer gating is replaced by an explicit `tick : Bool`
  oracle (true when at least 1/60 s elapsed), and `rand::random_range`
  by an explicit `rand : Nat` oracle reduced to a byte.
* `Vec<u16>` used as a stack is embedded as a `List Nat` whose head is the
  top of the stack (`push` = cons, `pop` = uncons), preserving LIFO order.
-/

set_option maxRecDepth 100000

namespace Chip8

/-- Screen width in pixels (`SCREEN_WIDTH`). -/
def SCREEN_WIDTH : Nat := 64

/-- Screen height in pixels (`SCREEN_HEIGHT`). -/
def SCREEN_HEIGHT : Nat := 32

/-- Memory size in bytes (`RAM_SIZE`). -/
def RAM_SIZE : Nat := 4096

/-- Number of variable registers (`NUM_VARIABLE_REGISTERS`). -/
def NUM_VARIABLE_REGISTERS : Nat := 16

/-- Number of keypad keys (`NUM_KEYS` in `keypad.rs`). -/
def NUM_KEYS : Nat := 16

/-- Size of the built-in font (`FONT_SET_SIZE`). -/
def FONT_SET_SIZE : Nat := 80

/-- The built-in hexadecimal glyph font (`FONT_SET`). -/
def FONT_SET : List Nat :=
  [0xF0, 0x90, 0x90, 0x90, 0xF0,
   0x20, 0x60, 0x20, 0x20, 0x70,
   0xF0, 0x10, 0xF0, 0x80, 0xF0,
   0xF0, 0x10, 0xF0, 0x10, 0xF0,
   0x90, 0x90, 0xF0, 0x10, 0x10,
   0xF0, 0x80, 0xF0, 0x10, 0xF0,
   0xF0, 0x80, 0xF0, 0x90, 0xF0,
   0xF0, 0x10, 0x20, 0x40, 0x40,
   0xF0, 0x90, 0xF0, 0x90, 0xF0,
   0xF0, 0x90, 0xF0, 0x10, 0xF0,
   0xF0, 0x90, 0xF0, 0x90, 0x90,
   0xE0, 0x90, 0xE0, 0x90, 0xE0,
   0xF0, 0x80, 0x80, 0x80, 0xF0,
   0xE0, 0x90, 0x90, 0x90, 0xE0,
   0xF0, 0x80, 0xF0, 0x80, 0xF0,
   0xF0, 0x80, 0xF0, 0x80, 0x80]

/-- Program load address (`START_ADDR`). -/
def START_ADDR : Nat := 0x200

/-- The two Rust panic classes the interpreter core can hit:
array indexing out of bounds, and the explicit `panic!` on popping an
empty call stack (`subroutine_exit`). -/
inductive EmuError where
  | indexOutOfBounds : EmuError
  | emptyStackPop : EmuError
  deriving DecidableEq

/-- Decoded instruction fields (`Opcode` in `opcode.rs`). -/
structure Opcode where
  category : Nat
  x : Nat
  y : Nat
  n : Nat
  nn : Nat
  nnn : Nat
  deriving DecidableEq

/-- `Opcode::decode`: split a 16-bit instruction word into its fields. -/
def Opcode.decode (instruction : Nat) : Opcode :=
  { category := (instruction &&& 0xF000) >>> 12
    x := (instruction &&& 0x0F00) >>> 8
    y := (instruction &&& 0x00F0) >>> 4
    n := instruction &&& 0x000F
    nn := instruction &&& 0x00FF
    nnn := instruction &&& 0x0FFF }

/-- The machine state (`struct Emulator`).  The `last_timer_update`
timestamp is replaced by the `tick` oracle passed to `execute`. -/
structure Emulator where
  ram : List Nat
  screen : List (List Bool)
  pc : Nat
  i : Nat
  stack : List Nat
  delay_timer : Nat
  sound_timer : Nat
  variable_registers : List Nat
  keypad : List Bool
  redraw_required : Bool
  use_y_on_shift : Bool
  use_x_on_jump : Bool
  deriving DecidableEq

/-- `Emulator::new`: zeroed machine with the font copied into the first
80 bytes of RAM and the program counter at `START_ADDR`. -/
def Emulator.new (use_y_on_shift use_x_on_jump : Bool) : Emulator :=
  { ram := FONT_SET ++ List.replicate (RAM_SIZE - FONT_SET_SIZE) 0
    screen := List.replicate SCREEN_HEIGHT (List.replicate SCREEN_WIDTH false)
    pc := START_ADDR
    i := 0
    stack := []
    delay_timer := 0
    sound_timer := 0
    variable_registers := List.replicate NUM_VARIABLE_REGISTERS 0
    keypad := List.replicate NUM_KEYS false
    redraw_required := false
    use_y_on_shift := use_y_on_shift
    use_x_on_jump := use_x_on_jump }

/-- Read `variable_registers[r]` (registers are bytes, see `Inv`). -/
def getReg (e : Emulator) (r : Nat) : Nat :=
  e.variable_registers.getD r 0

/-- Write `variable_registers[r] = v`. -/
def setReg (e : Emulator) (r v : Nat) : Emulator :=
  { e with variable_registers := e.variable_registers.set r v }

/-- `handle_timers`: when the 1/60 s wall-clock gate fires (`tick`),
decrement both timers with saturation at 0 (`saturating_sub`). -/
def handle_timers (e : Emulator) (tick : Bool) : Emulator :=
  if tick then
    { e with delay_timer := e.delay_timer - 1, sound_timer := e.sound_timer - 1 }
  else e

/-- `fetch_next_byte`: read `ram[pc]` (a panic when `pc` is out of
bounds), then increment the program counter and wrap it modulo
`RAM_SIZE`. -/
def fetch_next_byte (e : Emulator) : Except EmuError (Nat × Emulator) :=
  if e.pc < RAM_SIZE then
    .ok (e.ram.getD e.pc 0, { e with pc := (e.pc + 1) % RAM_SIZE })
  else .error .indexOutOfBounds

/-- `fetch`: two consecutive byte fetches combined big-endian. -/
def fetch (e : Emulator) : Except EmuError (Nat × Emulator) :=
  match fetch_next_byte e with
  | .error err => .error err
  | .ok (hi, e1) =>
    match fetch_next_byte e1 with
    | .error err => .error err
    | .ok (lo, e2) => .ok ((hi <<< 8) ||| lo, e2)

/-- `clear_screen` (0x00E0). -/
def clear_screen (e : Emulator) : Emulator :=
  { e with screen := List.replicate SCREEN_HEIGHT (List.replicate SCREEN_WIDTH false)
           redraw_required := true }

/-- `jump` (0x1NNN). -/
def jump (e : Emulator) (memory_location : Nat) : Emulator :=
  { e with pc := memory_location }

/-- `subroutine_call` (0x2NNN): push the current (post-fetch) program
counter and jump. -/
def subroutine_call (e : Emulator) (memory_location : Nat) : Emulator :=
  { e with stack := e.pc :: e.stack, pc := memory_location }

/-- `subroutine_exit` (0x00EE): pop the return address; popping an empty
stack is the `panic!` in the source. -/
def subroutine_exit (e : Emulator) : Except EmuError Emulator :=
  match e.stack with
  | exit_location :: rest => .ok { e with pc := exit_location, stack := rest }
  | [] => .error .emptyStackPop

/-- `set_register_to_val` (0x6XNN). -/
def set_register_to_val (e : Emulator) (reg value : Nat) : Emulator :=
  setReg e reg value

/-- `add_val_to_register` (0x7XNN): `wrapping_add`, no flag. -/
def add_val_to_register (e : Emulator) (reg value : Nat) : Emulator :=
  setReg e reg ((getReg e reg + value) % 256)

/-- `set_index_register` (0xANNN). -/
def set_index_register (e : Emulator) (value : Nat) : Emulator :=
  { e with i := value }

/-- One inner-loop iteration of `display`: sprite bit `j` of `sprite_row`
drawn at screen position `(x_coord + j, y)`.  The Rust `&&` is
short-circuiting, so the screen is indexed (and can panic) only when the
sprite bit is set. -/
def drawPixel (e : Emulator) (x_coord y sprite_row j : Nat) :
    Except EmuError Emulator :=
  let x := x_coord + j
  let sprite_bit_on := ((sprite_row >>> (7 - j)) &&& 1) = 1
  if sprite_bit_on then
    if y < e.screen.length then
      let row := e.screen.getD y []
      if x < row.length then
        if row.getD x false then
          .ok (setReg { e with screen := e.screen.set y (row.set x false) } 15 1)
        else
          .ok { e with screen := e.screen.set y (row.set x true) }
      else .error .indexOutOfBounds
    else .error .indexOutOfBounds
  else .ok e

/-- The inner `for j in 0..8` loop of `display` over the listed bit
indices. -/
def drawBits (e : Emulator) (x_coord y sprite_row : Nat) :
    List Nat → Except EmuError Emulator
  | [] => .ok e
  | j :: js =>
    match drawPixel e x_coord y sprite_row j with
    | .error err => .error err
    | .ok e' => drawBits e' x_coord y sprite_row js

/-- The outer `for i in 0..sprite_height` loop of `display` over the
listed row indices: each row reads `ram[i_reg + i]` (a panic when out of
bounds) and draws its 8 bits. -/
def displayRows (e : Emulator) (x_coord y_coord : Nat) :
    List Nat → Except EmuError Emulator
  | [] => .ok e
  | i :: is =>
    if e.i + i < RAM_SIZE then
      let sprite_row := e.ram.getD (e.i + i) 0
      match drawBits e x_coord (y_coord + i) sprite_row (List.range 8) with
      | .error err => .error err
      | .ok e' => displayRows e' x_coord y_coord is
    else .error .indexOutOfBounds

/-- `display` (0xDXYN): start coordinates wrap modulo the screen size,
flag register cleared, sprite rows drawn, redraw flag set. -/
def display (e : Emulator) (x_reg y_reg sprite_height : Nat) :
    Except EmuError Emulator :=
  let x_coord := getReg e x_reg % SCREEN_WIDTH
  let y_coord := getReg e y_reg % SCREEN_HEIGHT
  let e := setReg e 15 0
  match displayRows e x_coord y_coord (List.range sprite_height) with
  | .error err => .error err
  | .ok e' => .ok { e' with redraw_required := true }

/-- `skip_if_equal` (0x3XNN). -/
def skip_if_equal (e : Emulator) (reg_num value : Nat) : Emulator :=
  if getReg e reg_num = value then { e with pc := (e.pc + 2) % 65536 } else e

/-- `skip_if_not_equal` (0x4XNN). -/
def skip_if_not_equal (e : Emulator) (reg_num value : Nat) : Emulator :=
  if getReg e reg_num ≠ value then { e with pc := (e.pc + 2) % 65536 } else e

/-- `skip_if_regs_equal` (0x5XY0). -/
def skip_if_regs_equal (e : Emulator) (x_reg y_reg : Nat) : Emulator :=
  if getReg e x_reg = getReg e y_reg then { e with pc := (e.pc + 2) % 65536 } else e

/-- `skip_if_regs_not_equal` (0x9XY0). -/
def skip_if_regs_not_equal (e : Emulator) (x_reg y_reg : Nat) : Emulator :=
  if getReg e x_reg ≠ getReg e y_reg then { e with pc := (e.pc + 2) % 65536 } else e

/-- `set_register_to_register` (0x8XY0). -/
def set_register_to_register (e : Emulator) (x_reg y_reg : Nat) : Emulator :=
  setReg e x_reg (getReg e y_reg)

/-- `bitwise_or` (0x8XY1). -/
def bitwise_or (e : Emulator) (x_reg y_reg : Nat) : Emulator :=
  setReg e x_reg (getReg e x_reg ||| getReg e y_reg)

/-- `bitwise_and` (0x8XY2). -/
def bitwise_and (e : Emulator) (x_reg y_reg : Nat) : Emulator :=
  setReg e x_reg (getReg e x_reg &&& getReg e y_reg)

/-- `bitwise_xor` (0x8XY3). -/
def bitwise_xor (e : Emulator) (x_reg y_reg : Nat) : Emulator :=
  setReg e x_reg (getReg e x_reg ^^^ getReg e y_reg)

/-- `add_register_to_register` (0x8XY4): `overflowing_add`; the wrapped
sum is written to `x_reg` first, then the carry flag to register 15. -/
def add_register_to_register (e : Emulator) (x_reg y_reg : Nat) : Emulator :=
  let sum := getReg e x_reg + getReg e y_reg
  let e1 := setReg e x_reg (sum % 256)
  setReg e1 15 (if 256 ≤ sum then 1 else 0)

/-- `subtract_yregister_from_xregister` (0x8XY5): `overflowing_sub`
computing `V[x] - V[y]`; the wrapped result is written first, then the
(inverted-polarity) borrow flag. -/
def subtract_yregister_from_xregister (e : Emulator) (x_reg y_reg : Nat) : Emulator :=
  let a := getReg e x_reg
  let b := getReg e y_reg
  let e1 := setReg e x_reg ((a + 256 - b) % 256)
  setReg e1 15 (if a < b then 0 else 1)

/-- `subtract_xregister_from_yregister` (0x8XY7): `overflowing_sub`
computing `V[y] - V[x]`; the wrapped result is written to `x_reg` first,
then the (inverted-polarity) borrow flag. -/
def subtract_xregister_from_yregister (e : Emulator) (x_reg y_reg : Nat) : Emulator :=
  let a := getReg e x_reg
  let b := getReg e y_reg
  let e1 := setReg e x_reg ((b + 256 - a) % 256)
  setReg e1 15 (if b < a then 0 else 1)

/-- `shift_to_right` (0x8XY6): optional quirk copy of `V[y]` into
`V[x]`, flag takes bit 0 of the (post-copy) target, then the in-place
right shift. -/
def shift_to_right (e : Emulator) (x_reg y_reg : Nat) : Emulator :=
  let e1 := if e.use_y_on_shift then setReg e x_reg (getReg e y_reg) else e
  let e2 := setReg e1 15 (getReg e1 x_reg &&& 1)
  setReg e2 x_reg (getReg e2 x_reg >>> 1)

/-- `shift_to_left` (0x8XYE): optional quirk copy of `V[y]` into `V[x]`,
flag takes bit 7 of the (post-copy) target, then the in-place left shift
(a `u8` shift, so the result is reduced modulo 256). -/
def shift_to_left (e : Emulator) (x_reg y_reg : Nat) : Emulator :=
  let e1 := if e.use_y_on_shift then setReg e x_reg (getReg e y_reg) else e
  let e2 := setReg e1 15 ((getReg e1 x_reg >>> 7) &&& 1)
  setReg e2 x_reg ((getReg e2 x_reg <<< 1) % 256)

/-- `jump_with_offset` (0xBXNN): base register 0, or register `x` when
the jump quirk is on; the `u16` sum is not masked to 12 bits. -/
def jump_with_offset (e : Emulator) (x_reg offset : Nat) : Emulator :=
  { e with pc :=
      if e.use_x_on_jump then (getReg e x_reg + offset) % 65536
      else (getReg e 0 + offset) % 65536 }

/-- `random` (0xCXNN): a random byte (the `rand` oracle reduced to a
byte) masked with `value`. -/
def random (e : Emulator) (x_reg value rand : Nat) : Emulator :=
  setReg e x_reg ((rand % 256) &&& value)

/-- `skip_if_key_pressed` (0xEX9E): the keypad array is indexed directly
by the register value, a panic when that value is ≥ 16. -/
def skip_if_key_pressed (e : Emulator) (reg : Nat) : Except EmuError Emulator :=
  if getReg e reg < NUM_KEYS then
    .ok (if e.keypad.getD (getReg e reg) false
         then { e with pc := (e.pc + 2) % 65536 } else e)
  else .error .indexOutOfBounds

/-- `skip_if_key_not_pressed` (0xEXA1). -/
def skip_if_key_not_pressed (e : Emulator) (reg : Nat) : Except EmuError Emulator :=
  if getReg e reg < NUM_KEYS then
    .ok (if !(e.keypad.getD (getReg e reg) false)
         then { e with pc := (e.pc + 2) % 65536 } else e)
  else .error .indexOutOfBounds

/-- `set_register_to_delay_timer` (0xFX07). -/
def set_register_to_delay_timer (e : Emulator) (reg : Nat) : Emulator :=
  setReg e reg e.delay_timer

/-- `set_delay_timer_to_register_value` (0xFX15). -/
def set_delay_timer_to_register_value (e : Emulator) (reg : Nat) : Emulator :=
  { e with delay_timer := getReg e reg }

/-- `set_sound_timer_to_register_value` (0xFX18). -/
def set_sound_timer_to_register_value (e : Emulator) (reg : Nat) : Emulator :=
  { e with sound_timer := getReg e reg }

/-- `add_register_to_index_register` (0xFX1E): `u16` sum of the index
register and `V[reg]`; on exceeding 0xFFF the flag is set and the sum is
corrected by 0x1000, otherwise the raw sum is stored and the flag is
untouched. -/
def add_register_to_index_register (e : Emulator) (reg : Nat) : Emulator :=
  let result := (e.i + getReg e reg) % 65536
  if 0xFFF < result then
    { e with variable_registers := e.variable_registers.set 15 1
             i := result - 0x1000 }
  else
    { e with i := result }

/-- `block_and_wait_for_key` (0xFX0A): scan keys 0..15; on the first held
key `i` the source executes `self.variable_registers[i] = i as u8` and
returns (note the index used is the key index `i`, not `reg`); with no
key held the program counter is rewound by 2 (`u16` wrapping
subtraction). -/
def block_and_wait_for_key (e : Emulator) (reg : Nat) : Emulator :=
  match (List.range NUM_KEYS).find? (fun i => e.keypad.getD i false) with
  | some i => setReg e i i
  | none => { e with pc := (e.pc + 65534) % 65536 }

/-- `warn_unknown_operation`: logging only, no state change. -/
def warn_unknown_operation (e : Emulator) : Emulator := e

/-- The dispatch `match` of `execute` over the decoded fields, applied to
the post-fetch, post-timer state. -/
def step (e : Emulator) (op : Opcode) (rand : Nat) : Except EmuError Emulator :=
  if op.category = 0x0 then
    if op.nnn = 0x0E0 then .ok (clear_screen e)
    else if op.nnn = 0x0EE then subroutine_exit e
    else .ok (warn_unknown_operation e)
  else if op.category = 0x1 then .ok (jump e op.nnn)
  else if op.category = 0x2 then .ok (subroutine_call e op.nnn)
  else if op.category = 0x3 then .ok (skip_if_equal e op.x op.nn)
  else if op.category = 0x4 then .ok (skip_if_not_equal e op.x op.nn)
  else if op.category = 0x5 then
    if op.n = 0x0 then .ok (skip_if_regs_equal e op.x op.y)
    else .ok (warn_unknown_operation e)
  else if op.category = 0x6 then .ok (set_register_to_val e op.x op.nn)
  else if op.category = 0x7 then .ok (add_val_to_register e op.x op.nn)
  else if op.category = 0x8 then
    if op.n = 0x0 then .ok (set_register_to_register e op.x op.y)
    else if op.n = 0x1 then .ok (bitwise_or e op.x op.y)
    else if op.n = 0x2 then .ok (bitwise_and e op.x op.y)
    else if op.n = 0x3 then .ok (bitwise_xor e op.x op.y)
    else if op.n = 0x4 then .ok (add_register_to_register e op.x op.y)
    else if op.n = 0x5 then .ok (subtract_yregister_from_xregister e op.x op.y)
    else if op.n = 0x6 then .ok (shift_to_right e op.x op.y)
    else if op.n = 0x7 then .ok (subtract_xregister_from_yregister e op.x op.y)
    else if op.n = 0xE then .ok (shift_to_left e op.x op.y)
    else .ok (warn_unknown_operation e)
  else if op.category = 0x9 then
    if op.n = 0x0 then .ok (skip_if_regs_not_equal e op.x op.y)
    else .ok (warn_unknown_operation e)
  else if op.category = 0xA then .ok (set_index_register e op.nnn)
  else if op.category = 0xB then .ok (jump_with_offset e op.x op.nnn)
  else if op.category = 0xC then .ok (random e op.x op.nn rand)
  else if op.category = 0xD then display e op.x op.y op.n
  else if op.category = 0xE then
    if op.nn = 0x9E then skip_if_key_pressed e op.x
    else if op.nn = 0xA1 then skip_if_key_not_pressed e op.x
    else .ok (warn_unknown_operation e)
  else if op.category = 0xF then
    if op.nn = 0x07 then .ok (set_register_to_delay_timer e op.x)
    else if op.nn = 0x0A then .ok (block_and_wait_for_key e op.x)
    else if op.nn = 0x15 then .ok (set_delay_timer_to_register_value e op.x)
    else if op.nn = 0x18 then .ok (set_sound_timer_to_register_value e op.x)
    else if op.nn = 0x1E then .ok (add_register_to_index_register e op.x)
    else .ok (warn_unknown_operation e)
  else .ok (warn_unknown_operation e)

/-- `execute`: fetch and decode (mutating the program counter), advance
the timers if the wall-clock gate fired, then dispatch. -/
def Emulator.execute (e : Emulator) (tick : Bool) (rand : Nat) :
    Except EmuError Emulator :=
  match fetch e with
  | .error err => .error err
  | .ok (instruction, e1) => step (handle_timers e1 tick) (Opcode.decode instruction) rand

/-- A decoded instruction whose (category, sub-selector) combination
reaches a `warn_unknown_operation` arm of the dispatch `match`. -/
def IsUnknownOp (op : Opcode) : Prop :=
  (op.category = 0x0 ∧ op.nnn ≠ 0x0E0 ∧ op.nnn ≠ 0x0EE) ∨
  (op.category = 0x5 ∧ op.n ≠ 0x0) ∨
  (op.category = 0x8 ∧ op.n ≠ 0x0 ∧ op.n ≠ 0x1 ∧ op.n ≠ 0x2 ∧ op.n ≠ 0x3 ∧
    op.n ≠ 0x4 ∧ op.n ≠ 0x5 ∧ op.n ≠ 0x6 ∧ op.n ≠ 0x7 ∧ op.n ≠ 0xE) ∨
  (op.category = 0x9 ∧ op.n ≠ 0x0) ∨
  (op.category = 0xE ∧ op.nn ≠ 0x9E ∧ op.nn ≠ 0xA1) ∨
  (op.category = 0xF ∧ op.nn ≠ 0x07 ∧ op.nn ≠ 0x0A ∧ op.nn ≠ 0x15 ∧
    op.nn ≠ 0x18 ∧ op.nn ≠ 0x1E) ∨
  (16 ≤ op.category)

instance (op : Opcode) : Decidable (IsUnknownOp op) := by
  unfold IsUnknownOp; infer_instance

/-- Registers are well formed: 16 slots, each holding a byte.  This is
what the Rust `[u8; 16]` type enforces. -/
def RegsOk (l : List Nat) : Prop :=
  l.length = 16 ∧ ∀ v ∈ l, v < 256

/-- The machine-integer typing invariant together with the 12-bit bound
on the index register: `u8` fields hold bytes and `i ≤ 0xFFF`. -/
def Inv (e : Emulator) : Prop :=
  RegsOk e.variable_registers ∧ e.delay_timer < 256 ∧ e.sound_timer < 256 ∧
    e.i ≤ 0xFFF

/-- Fresh machine whose register 0 holds 63: drawing a 1-row sprite from
address 0 (font byte 0xF0) at `(63, 0)` maps sprite bit `j = 1` to
column 64, outside the screen. -/
def eDrawEdge : Emulator :=
  { Emulator.new false false with
      variable_registers := (List.replicate 16 0).set 0 63 }

/-- Fresh machine with key 5 held. -/
def eKey5 : Emulator :=
  { Emulator.new false false with
      keypad := (List.replicate 16 false).set 5 true }

/-- Fresh machine whose index register holds 0xFFF: the second row of a
2-row sprite is read from address 0x1000. -/
def eIndexTop : Emulator :=
  { Emulator.new false false with i := 0xFFF }

/-- Fresh machine about to execute a taken skip at address 4092
(instruction 0x3000: skip when `V[0] = 0`). -/
def eSkipTop : Emulator :=
  { Emulator.new false false with
      pc := 4092
      ram := (((Emulator.new false false).ram).set 4092 0x30).set 4093 0x00 }

/-- Fresh machine with `i = 0xFFF` and `V[0] = 1`, exercising the
overflowing branch of 0xFX1E. -/
def eIndexAdd : Emulator :=
  { Emulator.new false false with
      i := 0xFFF
      variable_registers := (List.replicate 16 0).set 0 1 }

/-- Fresh machine with the shift quirk on and `V[1] = 3`, the spec's
shift-right example. -/
def eShiftQuirk : Emulator :=
  { Emulator.new true false with
      variable_registers := (List.replicate 16 0).set 1 3 }

/-- Fresh machine with `V[0] = 1` and `V[1] = 2`, the spec's borrow
example. -/
def eSubBorrow : Emulator :=
  { Emulator.new false false with
      variable_registers := ((List.replicate 16 0).set 0 1).set 1 2 }

/-- The state a fresh machine reaches after fetching one instruction:
only the program counter has moved, to 0x202. -/
def eAfterFetch : Emulator :=
  { Emulator.new false false with pc := 0x202 }

/-- Fresh machine with one return address on the call stack. -/
def eStackOne : Emulator :=
  { Emulator.new false false with stack := [0x234] }

/-- Fresh machine with `V[15] = 1` and `V[1] = 2`: subtracting with
`x = 15` makes the wrapped result (255) and the flag (0) differ. -/
def eFlagAlias : Emulator :=
  { Emulator.new false false with
      variable_registers := ((List.replicate 16 0).set 15 1).set 1 2 }

/-- The state `eSkipTop` reaches after its taken skip: the program
counter sits at 4096, one past the last valid memory index. -/
def eSkipTopAfter : Emulator :=
  { eSkipTop with pc := 4096 }

/-! ## Helper lemmas -/

/-- `getD` after `set` at the same (in-range) index. -/
theorem getD_set_self (l : List Nat) (n a : Nat) (h : n < l.length) :
    (l.set n a).getD n 0 = a := by
  simp [List.getD, List.getElem?_set_self, h]

/-- `getD` after `set` at a different index. -/
theorem getD_set_ne (l : List Nat) (m n a : Nat) (h : m ≠ n) :
    (l.set m a).getD n 0 = l.getD n 0 := by
  simp [List.getD, List.getElem?_set_ne h]

/-- Every `getD` read from a byte list is a byte (the default is 0). -/
theorem getD_lt (l : List Nat) (r : Nat) (h : ∀ v ∈ l, v < 256) :
    l.getD r 0 < 256 := by
  rcases Nat.lt_or_ge r l.length with hr | hr
  · have hm : l[r] ∈ l := List.getElem_mem hr
    have heq : l.getD r 0 = l[r] := by simp [List.getD, List.getElem?_eq_getElem hr]
    rw [heq]; exact h _ hm
  · have heq : l.getD r 0 = 0 := by simp [List.getD, List.getElem?_eq_none hr]
    omega

/-- Reading back the register just written. -/
theorem getReg_setReg_self (e : Emulator) (r v : Nat)
    (h : r < e.variable_registers.length) :
    getReg (setReg e r v) r = v :=
  getD_set_self e.variable_registers r v h

/-- Reading a register other than the one just written. -/
theorem getReg_setReg_ne (e : Emulator) (r s v : Nat) (h : r ≠ s) :
    getReg (setReg e r v) s = getReg e s :=
  getD_set_ne e.variable_registers r s v h

/-- `RegsOk` is preserved by writing a byte. -/
theorem RegsOk.set {l : List Nat} (h : RegsOk l) {n v : Nat} (hv : v < 256) :
    RegsOk (l.set n v) := by
  obtain ⟨hlen, hmem⟩ := h
  refine ⟨by simp [List.length_set, hlen], ?_⟩
  intro u hu
  rcases List.mem_or_eq_of_mem_set hu with h' | h'
  · exact hmem _ h'
  · omega

/-- Writing a register does not change the register count. -/
theorem setReg_length (e : Emulator) (r v : Nat) :
    (setReg e r v).variable_registers.length = e.variable_registers.length := by
  simp [setReg, List.length_set]

theorem and_one_lt_256 {a : Nat} : a &&& 1 < 256 := by
  have := @Nat.and_le_right a 1; omega

theorem shiftRight_lt_256 {a n : Nat} (h : a < 256) : a >>> n < 256 := by
  rw [Nat.shiftRight_eq_div_pow]
  have := Nat.div_le_self a (2 ^ n)
  omega

theorem or_lt_256 {a b : Nat} (ha : a < 256) (hb : b < 256) : a ||| b < 256 := by
  have h : a ||| b < 2 ^ 8 := Nat.or_lt_two_pow (by omega) (by omega)
  omega

theorem xor_lt_256 {a b : Nat} (ha : a < 256) (hb : b < 256) : a ^^^ b < 256 := by
  have h : a ^^^ b < 2 ^ 8 := Nat.xor_lt_two_pow (by omega) (by omega)
  omega

theorem Inv.getReg_lt (hInv : Inv e) (r : Nat) : getReg e r < 256 :=
  getD_lt _ _ hInv.1.2

theorem Inv_setReg {e : Emulator} (hInv : Inv e) {r v : Nat} (hv : v < 256) :
    Inv (setReg e r v) :=
  ⟨hInv.1.set hv, hInv.2.1, hInv.2.2.1, hInv.2.2.2⟩

theorem Inv_mk {e e' : Emulator} (hInv : Inv e)
    (h1 : e'.variable_registers = e.variable_registers)
    (h2 : e'.delay_timer = e.delay_timer) (h3 : e'.sound_timer = e.sound_timer)
    (h4 : e'.i = e.i) : Inv e' := by
  unfold Inv RegsOk at *
  rw [h1, h2, h3, h4]
  exact hInv

theorem Inv_handle_timers {e : Emulator} (hInv : Inv e) (tick : Bool) :
    Inv (handle_timers e tick) := by
  obtain ⟨hro, hdt, hst, hi⟩ := hInv
  unfold handle_timers
  split_ifs
  · refine ⟨hro, ?_, ?_, hi⟩
    · show e.delay_timer - 1 < 256
      omega
    · show e.sound_timer - 1 < 256
      omega
  · exact ⟨hro, hdt, hst, hi⟩

theorem Inv_skip_if_equal {e : Emulator} (hInv : Inv e) (a b : Nat) :
    Inv (skip_if_equal e a b) := by
  unfold skip_if_equal
  split_ifs <;> exact Inv_mk hInv rfl rfl rfl rfl

theorem Inv_skip_if_not_equal {e : Emulator} (hInv : Inv e) (a b : Nat) :
    Inv (skip_if_not_equal e a b) := by
  unfold skip_if_not_equal
  split_ifs <;> exact Inv_mk hInv rfl rfl rfl rfl

theorem Inv_skip_if_regs_equal {e : Emulator} (hInv : Inv e) (a b : Nat) :
    Inv (skip_if_regs_equal e a b) := by
  unfold skip_if_regs_equal
  split_ifs <;> exact Inv_mk hInv rfl rfl rfl rfl

theorem Inv_skip_if_regs_not_equal {e : Emulator} (hInv : Inv e) (a b : Nat) :
    Inv (skip_if_regs_not_equal e a b) := by
  unfold skip_if_regs_not_equal
  split_ifs <;> exact Inv_mk hInv rfl rfl rfl rfl

theorem Inv_subroutine_exit {e e' : Emulator} (hInv : Inv e)
    (h : subroutine_exit e = .ok e') : Inv e' := by
  unfold subroutine_exit at h
  cases hs : e.stack with
  | nil => rw [hs] at h; cases h
  | cons a rest => rw [hs] at h; cases h; exact Inv_mk hInv rfl rfl rfl rfl

theorem Inv_shift_to_right {e : Emulator} (hInv : Inv e) (x y : Nat) :
    Inv (shift_to_right e x y) := by
  have h1 : Inv (if e.use_y_on_shift then setReg e x (getReg e y) else e) := by
    split_ifs
    · exact Inv_setReg hInv (hInv.getReg_lt y)
    · exact hInv
  have h2 : Inv (setReg (if e.use_y_on_shift then setReg e x (getReg e y) else e) 15
      (getReg (if e.use_y_on_shift then setReg e x (getReg e y) else e) x &&& 1)) :=
    Inv_setReg h1 and_one_lt_256
  exact Inv_setReg h2 (shiftRight_lt_256 (h2.getReg_lt x))

theorem Inv_shift_to_left {e : Emulator} (hInv : Inv e) (x y : Nat) :
    Inv (shift_to_left e x y) := by
  have h1 : Inv (if e.use_y_on_shift then setReg e x (getReg e y) else e) := by
    split_ifs
    · exact Inv_setReg hInv (hInv.getReg_lt y)
    · exact hInv
  have h2 : Inv (setReg (if e.use_y_on_shift then setReg e x (getReg e y) else e) 15
      ((getReg (if e.use_y_on_shift then setReg e x (getReg e y) else e) x >>> 7) &&& 1)) :=
    Inv_setReg h1 and_one_lt_256
  exact Inv_setReg h2 (Nat.mod_lt _ (by norm_num))

theorem Inv_add_register_to_index_register {e : Emulator} (hInv : Inv e) (r : Nat) :
    Inv (add_register_to_index_register e r) := by
  obtain ⟨hro, hdt, hst, hi⟩ := hInv
  have hv : getReg e r < 256 := getD_lt _ _ hro.2
  have hmod : (e.i + getReg e r) % 65536 = e.i + getReg e r := Nat.mod_eq_of_lt (by omega)
  unfold add_register_to_index_register
  simp only [hmod]
  split_ifs with hgt
  · refine ⟨hro.set (by norm_num), hdt, hst, ?_⟩
    show e.i + getReg e r - 0x1000 ≤ 0xFFF
    omega
  · refine ⟨hro, hdt, hst, ?_⟩
    show e.i + getReg e r ≤ 0xFFF
    omega

theorem Inv_block_and_wait_for_key {e : Emulator} (hInv : Inv e) (r : Nat) :
    Inv (block_and_wait_for_key e r) := by
  unfold block_and_wait_for_key
  generalize hf : (List.range NUM_KEYS).find? (fun i => e.keypad.getD i false) = res
  cases res with
  | none => exact Inv_mk hInv rfl rfl rfl rfl
  | some i =>
    have hmem : i ∈ List.range NUM_KEYS := List.mem_of_find?_eq_some hf
    have hlt : i < NUM_KEYS := List.mem_range.mp hmem
    exact Inv_setReg hInv (by unfold NUM_KEYS at hlt; omega)

theorem Inv_skip_if_key_pressed {e e' : Emulator} (hInv : Inv e) (r : Nat)
    (h : skip_if_key_pressed e r = .ok e') : Inv e' := by
  unfold skip_if_key_pressed at h
  split_ifs at h
  all_goals cases h
  all_goals exact Inv_mk hInv rfl rfl rfl rfl

theorem Inv_skip_if_key_not_pressed {e e' : Emulator} (hInv : Inv e) (r : Nat)
    (h : skip_if_key_not_pressed e r = .ok e') : Inv e' := by
  unfold skip_if_key_not_pressed at h
  split_ifs at h
  all_goals cases h
  all_goals exact Inv_mk hInv rfl rfl rfl rfl

theorem Inv_drawPixel {e e' : Emulator} {a b c d : Nat} (hInv : Inv e)
    (h : drawPixel e a b c d = .ok e') : Inv e' := by
  unfold drawPixel at h
  dsimp only at h
  split_ifs at h
  all_goals cases h
  all_goals first
    | exact ⟨hInv.1.set (by norm_num), hInv.2.1, hInv.2.2.1, hInv.2.2.2⟩
    | exact Inv_mk hInv rfl rfl rfl rfl

theorem Inv_drawBits {a b c : Nat} :
    ∀ (js : List Nat) (e e' : Emulator), Inv e → drawBits e a b c js = .ok e' → Inv e' := by
  intro js
  induction js with
  | nil => intro e e' hInv h; cases h; exact hInv
  | cons j js ih =>
    intro e e' hInv h
    unfold drawBits at h
    cases hp : drawPixel e a b c j with
    | error err => rw [hp] at h; cases h
    | ok e1 =>
      rw [hp] at h
      exact ih e1 e' (Inv_drawPixel hInv hp) h

theorem Inv_displayRows {a b : Nat} :
    ∀ (is : List Nat) (e e' : Emulator), Inv e → displayRows e a b is = .ok e' → Inv e' := by
  intro is
  induction is with
  | nil => intro e e' hInv h; cases h; exact hInv
  | cons i is ih =>
    intro e e' hInv h
    unfold displayRows at h
    dsimp only at h
    split_ifs at h
    · cases hb : drawBits e a (b + i) (e.ram.getD (e.i + i) 0) (List.range 8) with
      | error err => rw [hb] at h; cases h
      | ok e1 =>
        rw [hb] at h
        exact ih e1 e' (Inv_drawBits _ e e1 hInv hb) h

theorem Inv_display {e e' : Emulator} (hInv : Inv e) (x y n : Nat)
    (h : display e x y n = .ok e') : Inv e' := by
  unfold display at h
  dsimp only at h
  cases hr : displayRows (setReg e 15 0) (getReg e x % SCREEN_WIDTH)
      (getReg e y % SCREEN_HEIGHT) (List.range n) with
  | error err => rw [hr] at h; cases h
  | ok e2 =>
    rw [hr] at h
    cases h
    exact Inv_mk (Inv_displayRows _ _ _ (Inv_setReg hInv (by norm_num)) hr) rfl rfl rfl rfl

set_option maxHeartbeats 1000000 in
theorem Inv_step {e e' : Emulator} {op : Opcode} {rand : Nat}
    (hInv : Inv e) (hnn : op.nn < 256) (hnnn : op.nnn ≤ 0xFFF)
    (h : step e op rand = .ok e') : Inv e' := by
  unfold step warn_unknown_operation at h
  by_cases hc1 : op.category = 0x0
  · rw [if_pos hc1] at h
    by_cases hc2 : op.nnn = 0x0E0
    · rw [if_pos hc2] at h
      cases h; exact Inv_mk hInv rfl rfl rfl rfl
    · rw [if_neg hc2] at h
      by_cases hc3 : op.nnn = 0x0EE
      · rw [if_pos hc3] at h
        exact Inv_subroutine_exit hInv h
      · rw [if_neg hc3] at h
        cases h; exact hInv
  · rw [if_neg hc1] at h
    by_cases hc4 : op.category = 0x1
    · rw [if_pos hc4] at h
      cases h; exact Inv_mk hInv rfl rfl rfl rfl
    · rw [if_neg hc4] at h
      by_cases hc5 : op.category = 0x2
      · rw [if_pos hc5] at h
        cases h; exact Inv_mk hInv rfl rfl rfl rfl
      · rw [if_neg hc5] at h
        by_cases hc6 : op.category = 0x3
        · rw [if_pos hc6] at h
          cases h; exact Inv_skip_if_equal hInv _ _
        · rw [if_neg hc6] at h
          by_cases hc7 : op.category = 0x4
          · rw [if_pos hc7] at h
            cases h; exact Inv_skip_if_not_equal hInv _ _
          · rw [if_neg hc7] at h
            by_cases hc8 : op.category = 0x5
            · rw [if_pos hc8] at h
              by_cases hc9 : op.n = 0x0
              · rw [if_pos hc9] at h
                cases h; exact Inv_skip_if_regs_equal hInv _ _
              · rw [if_neg hc9] at h
                cases h; exact hInv
            · rw [if_neg hc8] at h
              by_cases hc10 : op.category = 0x6
              · rw [if_pos hc10] at h
                cases h; exact Inv_setReg hInv hnn
              · rw [if_neg hc10] at h
                by_cases hc11 : op.category = 0x7
                · rw [if_pos hc11] at h
                  cases h; exact Inv_setReg hInv (Nat.mod_lt _ (by norm_num))
                · rw [if_neg hc11] at h
                  by_cases hc12 : op.category = 0x8
                  · rw [if_pos hc12] at h
                    by_cases hc13 : op.n = 0x0
                    · rw [if_pos hc13] at h
                      cases h; exact Inv_setReg hInv (hInv.getReg_lt _)
                    · rw [if_neg hc13] at h
                      by_cases hc14 : op.n = 0x1
                      · rw [if_pos hc14] at h
                        cases h; exact Inv_setReg hInv (or_lt_256 (hInv.getReg_lt _) (hInv.getReg_lt _))
                      · rw [if_neg hc14] at h
                        by_cases hc15 : op.n = 0x2
                        · rw [if_pos hc15] at h
                          cases h
                          refine Inv_setReg hInv ?_
                          have h1 := @Nat.and_le_right (getReg e op.x) (getReg e op.y)
                          have h2 := hInv.getReg_lt op.y
                          omega
                        · rw [if_neg hc15] at h
                          by_cases hc16 : op.n = 0x3
                          · rw [if_pos hc16] at h
                            cases h; exact Inv_setReg hInv (xor_lt_256 (hInv.getReg_lt _) (hInv.getReg_lt _))
                          · rw [if_neg hc16] at h
                            by_cases hc17 : op.n = 0x4
                            · rw [if_pos hc17] at h
                              cases h
                              exact Inv_setReg (Inv_setReg hInv (Nat.mod_lt _ (by norm_num))) (by split_ifs <;> norm_num)
                            · rw [if_neg hc17] at h
                              by_cases hc18 : op.n = 0x5
                              · rw [if_pos hc18] at h
                                cases h
                                exact Inv_setReg (Inv_setReg hInv (Nat.mod_lt _ (by norm_num))) (by split_ifs <;> norm_num)
                              · rw [if_neg hc18] at h
                                by_cases hc19 : op.n = 0x6
                                · rw [if_pos hc19] at h
                                  cases h; exact Inv_shift_to_right hInv _ _
                                · rw [if_neg hc19] at h
                                  by_cases hc20 : op.n = 0x7
                                  · rw [if_pos hc20] at h
                                    cases h
                                    exact Inv_setReg (Inv_setReg hInv (Nat.mod_lt _ (by norm_num))) (by split_ifs <;> norm_num)
                                  · rw [if_neg hc20] at h
                                    by_cases hc21 : op.n = 0xE
                                    · rw [if_pos hc21] at h
                                      cases h; exact Inv_shift_to_left hInv _ _
                                    · rw [if_neg hc21] at h
                                      cases h; exact hInv
                  · rw [if_neg hc12] at h
                    by_cases hc22 : op.category = 0x9
                    · rw [if_pos hc22] at h
                      by_cases hc23 : op.n = 0x0
                      · rw [if_pos hc23] at h
                        cases h; exact Inv_skip_if_regs_not_equal hInv _ _
                      · rw [if_neg hc23] at h
                        cases h; exact hInv
                    · rw [if_neg hc22] at h
                      by_cases hc24 : op.category = 0xA
                      · rw [if_pos hc24] at h
                        cases h; exact ⟨hInv.1, hInv.2.1, hInv.2.2.1, hnnn⟩
                      · rw [if_neg hc24] at h
                        by_cases hc25 : op.category = 0xB
                        · rw [if_pos hc25] at h
                          cases h; exact Inv_mk hInv rfl rfl rfl rfl
                        · rw [if_neg hc25] at h
                          by_cases hc26 : op.category = 0xC
                          · rw [if_pos hc26] at h
                            cases h
                            refine Inv_setReg hInv ?_
                            have h1 : rand % 256 < 256 := Nat.mod_lt _ (by norm_num)
                            have h2 := @Nat.and_le_left (rand % 256) op.nn
                            omega
                          · rw [if_neg hc26] at h
                            by_cases hc27 : op.category = 0xD
                            · rw [if_pos hc27] at h
                              exact Inv_display hInv _ _ _ h
                            · rw [if_neg hc27] at h
                              by_cases hc28 : op.category = 0xE
                              · rw [if_pos hc28] at h
                                by_cases hc29 : op.nn = 0x9E
                                · rw [if_pos hc29] at h
                                  exact Inv_skip_if_key_pressed hInv _ h
                                · rw [if_neg hc29] at h
                                  by_cases hc30 : op.nn = 0xA1
                                  · rw [if_pos hc30] at h
                                    exact Inv_skip_if_key_not_pressed hInv _ h
                                  · rw [if_neg hc30] at h
                                    cases h; exact hInv
                              · rw [if_neg hc28] at h
                                by_cases hc31 : op.category = 0xF
                                · rw [if_pos hc31] at h
                                  by_cases hc32 : op.nn = 0x07
                                  · rw [if_pos hc32] at h
                                    cases h; exact Inv_setReg hInv hInv.2.1
                                  · rw [if_neg hc32] at h
                                    by_cases hc33 : op.nn = 0x0A
                                    · rw [if_pos hc33] at h
                                      cases h; exact Inv_block_and_wait_for_key hInv _
                                    · rw [if_neg hc33] at h
                                      by_cases hc34 : op.nn = 0x15
                                      · rw [if_pos hc34] at h
                                        cases h; exact ⟨hInv.1, hInv.getReg_lt _, hInv.2.2.1, hInv.2.2.2⟩
                                      · rw [if_neg hc34] at h
                                        by_cases hc35 : op.nn = 0x18
                                        · rw [if_pos hc35] at h
                                          cases h; exact ⟨hInv.1, hInv.2.1, hInv.getReg_lt _, hInv.2.2.2⟩
                                        · rw [if_neg hc35] at h
                                          by_cases hc36 : op.nn = 0x1E
                                          · rw [if_pos hc36] at h
                                            cases h; exact Inv_add_register_to_index_register hInv _
                                          · rw [if_neg hc36] at h
                                            cases h; exact hInv
                                · rw [if_neg hc31] at h
                                  cases h; exact hInv

/-- A fresh machine satisfies the typing invariant. -/
theorem Inv_new (f g : Bool) : Inv (Emulator.new f g) := by
  refine ⟨⟨rfl, ?_⟩, by show (0:Nat) < 256; norm_num, by show (0:Nat) < 256; norm_num,
    by show (0:Nat) ≤ 0xFFF; norm_num⟩
  intro v hv
  have := List.eq_of_mem_replicate hv
  omega

/-- The decoded immediate byte is a byte. -/
theorem decode_nn_lt (w : Nat) : (Opcode.decode w).nn < 256 := by
  show w &&& 0xFF < 256
  have := @Nat.and_le_right w 0xFF
  omega

/-- The decoded 12-bit address is at most 0xFFF. -/
theorem decode_nnn_le (w : Nat) : (Opcode.decode w).nnn ≤ 0xFFF := by
  show w &&& 0xFFF ≤ 0xFFF
  exact @Nat.and_le_right w 0xFFF

/-- A successful fetch requires the incoming program counter to be in
bounds and only advances the program counter by two, modulo 4096. -/
theorem fetch_ok_spec (e : Emulator) (w : Nat) (e1 : Emulator)
    (h : fetch e = .ok (w, e1)) :
    e.pc < 4096 ∧ e1 = { e with pc := (e.pc + 2) % 4096 } := by
  unfold fetch fetch_next_byte RAM_SIZE at h
  by_cases hpc : e.pc < 4096
  · rw [if_pos hpc] at h
    dsimp only at h
    have h2 : (e.pc + 1) % 4096 < 4096 := Nat.mod_lt _ (by norm_num)
    rw [if_pos h2] at h
    dsimp only at h
    injection h with hp
    injection hp with hw he
    refine ⟨hpc, ?_⟩
    rw [← he]
    have hq : ((e.pc + 1) % 4096 + 1) % 4096 = (e.pc + 2) % 4096 := by omega
    congr 1
  · rw [if_neg hpc] at h
    cases h

/-- Dispatch of an unrecognized (category, sub-selector) combination is
the identity on the machine state. -/
theorem step_unknown (e : Emulator) (op : Opcode) (rand : Nat)
    (hu : IsUnknownOp op) : step e op rand = .ok e := by
  unfold step warn_unknown_operation
  rcases hu with ⟨h, h1, h2⟩ | ⟨h, h1⟩ | ⟨h, h1, h2, h3, h4, h5, h6, h7, h8, h9⟩ |
    ⟨h, h1⟩ | ⟨h, h1, h2⟩ | ⟨h, h1, h2, h3, h4, h5⟩ | h
  · simp [h, h1, h2]
  · simp [h, h1]
  · simp [h, h1, h2, h3, h4, h5, h6, h7, h8, h9]
  · simp [h, h1]
  · simp [h, h1, h2]
  · simp [h, h1, h2, h3, h4, h5]
  · have c0 : op.category ≠ 0x0 := by omega
    have c1 : op.category ≠ 0x1 := by omega
    have c2 : op.category ≠ 0x2 := by omega
    have c3 : op.category ≠ 0x3 := by omega
    have c4 : op.category ≠ 0x4 := by omega
    have c5 : op.category ≠ 0x5 := by omega
    have c6 : op.category ≠ 0x6 := by omega
    have c7 : op.category ≠ 0x7 := by omega
    have c8 : op.category ≠ 0x8 := by omega
    have c9 : op.category ≠ 0x9 := by omega
    have cA : op.category ≠ 0xA := by omega
    have cB : op.category ≠ 0xB := by omega
    have cC : op.category ≠ 0xC := by omega
    have cD : op.category ≠ 0xD := by omega
    have cE : op.category ≠ 0xE := by omega
    have cF : op.category ≠ 0xF := by omega
    simp [c0, c1, c2, c3, c4, c5, c6, c7, c8, c9, cA, cB, cC, cD, cE, cF]

/-! ## Claim theorems -/

/-- Claim C1, evidence against: on a fresh machine with `V[0] = 63`,
`V[1] = 0` and `I = 0` (font byte 0xF0), the draw instruction 0xD011
maps sprite bit `j = 1` to column 64; the code indexes the framebuffer
there without a per-pixel bounds check and panics instead of skipping
the pixel and completing. -/
theorem draw_out_of_bounds_pixel_panics :
    display eDrawEdge 0 1 1 = .error .indexOutOfBounds := by
  rfl

/-- Claim C2, evidence against: with key 5 held and target register 0
(instruction 0xF00A), the code executes `variable_registers[i] = i`
with `i` the key index, so `V[5]` becomes 5 while the target register
`V[0]` stays 0 — the claim (and the function's own doc comment) says
the key index is written into the target register.  The program-counter
behavior of the claim does hold: with a key held the post-fetch program
counter is kept, and with no key held it is rewound by 2. -/
theorem block_for_key_writes_wrong_register :
    getReg (block_and_wait_for_key eKey5 0) 0 = 0 ∧
    getReg (block_and_wait_for_key eKey5 0) 5 = 5 ∧
    (block_and_wait_for_key eKey5 0).pc = eKey5.pc ∧
    (block_and_wait_for_key (Emulator.new false false) 0).pc = 0x1FE :=
  ⟨rfl, rfl, rfl, rfl⟩

/-- Claim C3, evidence against: sprite-row reads are not reduced modulo
4096 — with `I = 0xFFF` a 2-row draw reads `ram[0x1000]` and panics —
and a taken conditional skip at address 4092 leaves the program counter
at 4096, so the next fetch indexes `ram[4096]` and panics instead of
wrapping. -/
theorem memory_access_not_reduced_mod_4096 :
    display eIndexTop 0 1 2 = .error .indexOutOfBounds ∧
    Emulator.execute eSkipTop false 0 = .ok eSkipTopAfter ∧
    eSkipTopAfter.pc = 4096 ∧
    Emulator.execute eSkipTopAfter false 0 = .error .indexOutOfBounds :=
  ⟨rfl, rfl, rfl, rfl⟩

/-- Claim C4: for the add-register-to-index instruction with a 12-bit
index register and a byte register value, a sum exceeding 0xFFF sets the
flag register to 1 and stores the sum minus 0x1000 in the index
register; otherwise the registers (including the flag) are untouched and
the index register takes the raw sum. -/
theorem add_to_index_overflow_spec (e : Emulator) (x : Nat)
    (hL : e.variable_registers.length = 16)
    (hi : e.i ≤ 0xFFF) (hv : getReg e x < 256) :
    (0xFFF < e.i + getReg e x →
      (add_register_to_index_register e x).i = e.i + getReg e x - 0x1000 ∧
      getReg (add_register_to_index_register e x) 15 = 1) ∧
    (e.i + getReg e x ≤ 0xFFF →
      (add_register_to_index_register e x).i = e.i + getReg e x ∧
      (add_register_to_index_register e x).variable_registers = e.variable_registers) := by
  have hmod : (e.i + getReg e x) % 65536 = e.i + getReg e x := Nat.mod_eq_of_lt (by omega)
  have h15 : (15 : Nat) < e.variable_registers.length := by omega
  unfold add_register_to_index_register
  simp only [hmod]
  constructor
  · intro h
    rw [if_pos h]
    exact ⟨rfl, getD_set_self _ _ _ h15⟩
  · intro h
    rw [if_neg (by omega)]
    exact ⟨rfl, rfl⟩

/-- Claim C4, witness: from `i = 0xFFF`, `V[0] = 1` the sum overflows,
the index register wraps to 0 and the flag register is set to 1. -/
theorem add_to_index_overflow_spec_witness :
    (add_register_to_index_register eIndexAdd 0).i = 0 ∧
    getReg (add_register_to_index_register eIndexAdd 0) 15 = 1 := by
  obtain ⟨h1, h2⟩ :=
    (add_to_index_overflow_spec eIndexAdd 0 (by decide) (by decide) (by decide)).1 (by decide)
  exact ⟨h1.trans (by decide), h2⟩

/-- Claim C5: for both shifts with target register `x ≠ 15`: the shifted
value is the quirk-selected source (`V[y]` when `use_y_on_shift`,
otherwise `V[x]`); the flag register receives the shifted-out bit taken
before the shift (bit 0 on a right shift, bit 7 on a left shift); and
the target register receives the one-bit shift of that value (reduced
modulo 256 on a left shift). -/
theorem shift_spec (e : Emulator) (x y : Nat)
    (hL : e.variable_registers.length = 16) (hx : x < 16) (hx15 : x ≠ 15) :
    getReg (shift_to_right e x y) x =
      (if e.use_y_on_shift then getReg e y else getReg e x) >>> 1 ∧
    getReg (shift_to_right e x y) 15 =
      (if e.use_y_on_shift then getReg e y else getReg e x) &&& 1 ∧
    getReg (shift_to_left e x y) x =
      ((if e.use_y_on_shift then getReg e y else getReg e x) <<< 1) % 256 ∧
    getReg (shift_to_left e x y) 15 =
      ((if e.use_y_on_shift then getReg e y else getReg e x) >>> 7) &&& 1 := by
  have hx2 : x < e.variable_registers.length := by omega
  have h15 : (15 : Nat) < e.variable_registers.length := by omega
  unfold shift_to_right shift_to_left
  cases hq : e.use_y_on_shift
  · simp only [hq, Bool.false_eq_true, if_false]
    refine ⟨?_, ?_, ?_, ?_⟩
    · rw [getReg_setReg_self _ _ _ (by rw [setReg_length]; exact hx2),
          getReg_setReg_ne _ _ _ _ (by omega)]
    · rw [getReg_setReg_ne _ _ _ _ hx15, getReg_setReg_self _ _ _ h15]
    · rw [getReg_setReg_self _ _ _ (by rw [setReg_length]; exact hx2),
          getReg_setReg_ne _ _ _ _ (by omega)]
    · rw [getReg_setReg_ne _ _ _ _ hx15, getReg_setReg_self _ _ _ h15]
  · simp only [hq, if_true]
    refine ⟨?_, ?_, ?_, ?_⟩
    · rw [getReg_setReg_self _ _ _ (by rw [setReg_length, setReg_length]; exact hx2),
          getReg_setReg_ne _ _ _ _ (by omega),
          getReg_setReg_self _ _ _ hx2]
    · rw [getReg_setReg_ne _ _ _ _ hx15,
          getReg_setReg_self _ _ _ (by rw [setReg_length]; exact h15),
          getReg_setReg_self _ _ _ hx2]
    · rw [getReg_setReg_self _ _ _ (by rw [setReg_length, setReg_length]; exact hx2),
          getReg_setReg_ne _ _ _ _ (by omega),
          getReg_setReg_self _ _ _ hx2]
    · rw [getReg_setReg_ne _ _ _ _ hx15,
          getReg_setReg_self _ _ _ (by rw [setReg_length]; exact h15),
          getReg_setReg_self _ _ _ hx2]

/-- Claim C5, witness: the spec example — quirk on, `V[x] = 0x00`,
`V[y] = 0x03` — yields `V[x] = 0x01` and flag 1 after a right shift. -/
theorem shift_spec_witness :
    getReg (shift_to_right eShiftQuirk 0 1) 0 = 1 ∧
    getReg (shift_to_right eShiftQuirk 0 1) 15 = 1 := by
  obtain ⟨h1, h2, h3, h4⟩ := shift_spec eShiftQuirk 0 1 (by decide) (by decide) (by decide)
  exact ⟨h1.trans (by decide), h2.trans (by decide)⟩

/-- Claim C6: both directional subtracts write the wrapped (mod 256)
result of the requested subtraction into the target register (`x ≠ 15`,
the aliased case being covered by the flag-overwrite claim), and the
flag register is 0 exactly when a borrow occurred, 1 otherwise. -/
theorem subtract_spec (e : Emulator) (x y : Nat)
    (hL : e.variable_registers.length = 16) (hx : x < 16) (hx15 : x ≠ 15)
    (ha : getReg e x < 256) (hb : getReg e y < 256) :
    ((getReg (subtract_yregister_from_xregister e x y) x : Int) =
      ((getReg e x : Int) - (getReg e y : Int)) % 256) ∧
    (getReg (subtract_yregister_from_xregister e x y) 15 =
      if getReg e x < getReg e y then 0 else 1) ∧
    ((getReg (subtract_xregister_from_yregister e x y) x : Int) =
      ((getReg e y : Int) - (getReg e x : Int)) % 256) ∧
    (getReg (subtract_xregister_from_yregister e x y) 15 =
      if getReg e y < getReg e x then 0 else 1) := by
  have hx2 : x < e.variable_registers.length := by omega
  have h15 : (15 : Nat) < e.variable_registers.length := by omega
  unfold subtract_yregister_from_xregister subtract_xregister_from_yregister
  refine ⟨?_, ?_, ?_, ?_⟩
  · rw [getReg_setReg_ne _ _ _ _ (by omega), getReg_setReg_self _ _ _ hx2]
    omega
  · rw [getReg_setReg_self _ _ _ (by rw [setReg_length]; exact h15)]
  · rw [getReg_setReg_ne _ _ _ _ (by omega), getReg_setReg_self _ _ _ hx2]
    omega
  · rw [getReg_setReg_self _ _ _ (by rw [setReg_length]; exact h15)]

/-- Claim C6, witness: the spec example — `V[x] = 0x01`, `V[y] = 0x02` —
yields result 0xFF with flag 0 (borrow). -/
theorem subtract_spec_witness :
    (getReg (subtract_yregister_from_xregister eSubBorrow 0 1) 0 : Int) = 0xFF ∧
    getReg (subtract_yregister_from_xregister eSubBorrow 0 1) 15 = 0 := by
  obtain ⟨h1, h2, h3, h4⟩ :=
    subtract_spec eSubBorrow 0 1 (by decide) (by decide) (by decide) (by decide) (by decide)
  exact ⟨h1.trans (by decide), h2.trans (by decide)⟩

/-- Claim C7: an instruction word decoding to an unrecognized
(category, sub-selector) combination executes without failure and
mutates nothing but the program counter (advanced by 2 modulo 4096 by
the fetch) and the tick-gated timers. -/
theorem unknown_op_no_state_mutation (e e1 : Emulator) (w : Nat) (tick : Bool) (rand : Nat)
    (hf : fetch e = .ok (w, e1)) (hu : IsUnknownOp (Opcode.decode w)) :
    Emulator.execute e tick rand = .ok (handle_timers e1 tick) ∧
    (handle_timers e1 tick).ram = e.ram ∧
    (handle_timers e1 tick).screen = e.screen ∧
    (handle_timers e1 tick).i = e.i ∧
    (handle_timers e1 tick).stack = e.stack ∧
    (handle_timers e1 tick).variable_registers = e.variable_registers ∧
    (handle_timers e1 tick).keypad = e.keypad ∧
    (handle_timers e1 tick).redraw_required = e.redraw_required ∧
    (handle_timers e1 tick).pc = (e.pc + 2) % 4096 ∧
    (handle_timers e1 tick).delay_timer = e.delay_timer - (if tick then 1 else 0) ∧
    (handle_timers e1 tick).sound_timer = e.sound_timer - (if tick then 1 else 0) := by
  obtain ⟨hpc, he1⟩ := fetch_ok_spec e w e1 hf
  constructor
  · unfold Emulator.execute
    rw [hf]
    exact step_unknown _ _ _ hu
  · subst he1
    unfold handle_timers
    cases tick <;> simp

/-- Claim C7, witness: a fresh machine holds instruction 0x0000 at the
program counter, an unknown combination; executing it just advances the
program counter to 0x202. -/
theorem unknown_op_no_state_mutation_witness :
    Emulator.execute (Emulator.new false false) false 0 = .ok eAfterFetch ∧
    eAfterFetch.pc = 0x202 := by
  have h := unknown_op_no_state_mutation (Emulator.new false false) eAfterFetch 0 false 0
    (by rfl) (by decide)
  exact ⟨h.1.trans (by rfl), rfl⟩

/-- Claim C8: the subroutine return pops the most recently pushed return
address (the head of the stack, which is where `subroutine_call` pushes
the post-fetch program counter) into the program counter, and popping an
empty stack is a distinguishable fatal error, both at the handler and at
the dispatch of instruction 0x00EE. -/
theorem subroutine_return_spec (e : Emulator) (rand : Nat) :
    (e.stack = [] → subroutine_exit e = .error .emptyStackPop) ∧
    (e.stack = [] → step e (Opcode.decode 0x00EE) rand = .error .emptyStackPop) ∧
    (∀ a rest, e.stack = a :: rest →
      subroutine_exit e = .ok { e with pc := a, stack := rest }) ∧
    (∀ nnn, (subroutine_call e nnn).stack = e.pc :: e.stack ∧
            (subroutine_call e nnn).pc = nnn) := by
  have hstep : step e (Opcode.decode 0x00EE) rand = subroutine_exit e := rfl
  refine ⟨?_, ?_, ?_, ?_⟩
  · intro h; unfold subroutine_exit; rw [h]
  · intro h; rw [hstep]; unfold subroutine_exit; rw [h]
  · intro a rest h; unfold subroutine_exit; rw [h]
  · intro nnn; exact ⟨rfl, rfl⟩

/-- Claim C8, witness: a fresh machine (empty stack) fails the return
with the empty-stack error; with 0x234 on the stack the return pops it
into the program counter. -/
theorem subroutine_return_spec_witness :
    subroutine_exit (Emulator.new false false) = .error .emptyStackPop ∧
    subroutine_exit eStackOne = .ok { eStackOne with pc := 0x234, stack := [] } := by
  refine ⟨(subroutine_return_spec (Emulator.new false false) 0).1 rfl, ?_⟩
  exact (subroutine_return_spec eStackOne 0).2.2.1 0x234 [] rfl

/-- Claim C9: executing add-with-carry or either subtract with target
register `x = 15` leaves the flag outcome, not the wrapped arithmetic
result, in register 15 — the flag write comes after the result write to
the same slot. -/
theorem flag_overwrites_result_spec (e : Emulator) (y : Nat)
    (hL : e.variable_registers.length = 16) :
    getReg (add_register_to_register e 15 y) 15 =
      (if 256 ≤ getReg e 15 + getReg e y then 1 else 0) ∧
    getReg (subtract_yregister_from_xregister e 15 y) 15 =
      (if getReg e 15 < getReg e y then 0 else 1) ∧
    getReg (subtract_xregister_from_yregister e 15 y) 15 =
      (if getReg e y < getReg e 15 then 0 else 1) := by
  have h15 : (15 : Nat) < e.variable_registers.length := by omega
  unfold add_register_to_register subtract_yregister_from_xregister
    subtract_xregister_from_yregister
  refine ⟨?_, ?_, ?_⟩ <;>
    rw [getReg_setReg_self _ _ _ (by rw [setReg_length]; exact h15)]

/-- Claim C9, witness: with `V[15] = 1`, `V[1] = 2`, the subtract
`V[15] - V[1]` wraps to 0xFF but register 15 ends at the flag value 0,
showing the flag write overwrote the result. -/
theorem flag_overwrites_result_spec_witness :
    getReg (subtract_yregister_from_xregister eFlagAlias 15 1) 15 = 0 := by
  obtain ⟨h1, h2, h3⟩ := flag_overwrites_result_spec eFlagAlias 1 (by decide)
  exact h2.trans (by decide)

/-- Claim C10: the index register is at most 0xFFF after construction
and after every successful instruction execution; the invariant `Inv`
(byte-typed registers and timers plus the 12-bit index bound) is
inductive for `execute`. -/
theorem index_register_invariant (f g : Bool) (e e' : Emulator) (tick : Bool) (rand : Nat) :
    Inv (Emulator.new f g) ∧ (Emulator.new f g).i ≤ 0xFFF ∧
    (Inv e → Emulator.execute e tick rand = .ok e' → Inv e' ∧ e'.i ≤ 0xFFF) := by
  refine ⟨Inv_new f g, (Inv_new f g).2.2.2, ?_⟩
  intro hInv hex
  unfold Emulator.execute at hex
  cases hf : fetch e with
  | error err => rw [hf] at hex; cases hex
  | ok p =>
    obtain ⟨w, e1⟩ := p
    rw [hf] at hex
    have hex2 : step (handle_timers e1 tick) (Opcode.decode w) rand = .ok e' := hex
    obtain ⟨hpc, he1⟩ := fetch_ok_spec e w e1 hf
    have hInv1 : Inv e1 := by
      rw [he1]
      exact Inv_mk hInv rfl rfl rfl rfl
    have hInv2 : Inv (handle_timers e1 tick) := Inv_handle_timers hInv1 tick
    have hInv3 : Inv e' := Inv_step hInv2 (decode_nn_lt w) (decode_nnn_le w) hex2
    exact ⟨hInv3, hInv3.2.2.2⟩

/-- Claim C10, witness: the invariant holds of a fresh machine, and is
carried through one concrete execute step. -/
theorem index_register_invariant_witness :
    Inv (Emulator.new false false) ∧ eAfterFetch.i ≤ 0xFFF := by
  have h := index_register_invariant false false (Emulator.new false false) eAfterFetch false 0
  exact ⟨h.1, (h.2.2 h.1 (by rfl)).2⟩

end Chip8
